import Mathlib

/-
  Verification development for the Dronne Rural Navigation repository.

  The development shallowly embeds the core algorithms of the repository:
  the offline A star routing engine (src/services/offlineRoutingEngine.ts),
  the waypoint chaining of the routing service (src/services/routingService.ts),
  the live navigation loop pieces (steering integrator, waypoint advance,
  maneuver detection) of the application component, and the geodesic
  primitives (calculateNewPosition / calculateDistance).

  Modelling conventions:
  - JavaScript numbers are modelled as exact rationals where the code only
    uses field arithmetic and comparisons, and as real numbers where the code
    uses transcendental functions (the geodesic primitives).
  - The value Infinity is modelled by the top element of WithTop Rat.
  - The JavaScript expression (x || Infinity) is falsy-aware: it yields
    Infinity when x is undefined OR ZERO.  This matters: the routing engine
    initialises the g-score of the start node to 0, so the expression
    (gScore.get(currentId) || Infinity) yields Infinity on the very first
    iteration of the A star loop.
  - The while loops of the code are modelled by well-founded recursion with
    the same loop conditions; the unbounded A star while loop is modelled
    with an explicit fuel parameter, and fuel adequacy is proven.
  - The haversine distance used to weight graph edges is a float computation;
    the graph and the engine are therefore parametrised by an abstract
    distance function distFn standing for calculateDistance.
-/

/-- Coordinate record of the repository (lat and lng), polymorphic in the
number representation so that the rational model and the real model share
one shape. -/
structure Coordinates (α : Type) where
  lat : α
  lng : α
  deriving DecidableEq, Repr

/-- Surface attribute of a graph edge, from the string union in
offlineRoutingEngine.ts. -/
inductive Surface where
  | paved
  | unpaved
  deriving DecidableEq, Repr

/-- RoutingOptions from types.ts: three required booleans. -/
structure RoutingOptions where
  preferPaved : Bool
  avoidHills : Bool
  allowHighways : Bool
  deriving DecidableEq, Repr

/-- Node identifiers of the fixed demo graph.  The source uses the string
ids n1 .. n17; they are modelled by a finite inductive type. -/
inductive NodeId where
  | n1 | n2 | n3 | n4 | n5 | n6 | n7 | n8 | n9
  | n10 | n11 | n12 | n13 | n14 | n15 | n16 | n17
  deriving DecidableEq, Repr

/-- GraphEdge from offlineRoutingEngine.ts. -/
structure GraphEdge where
  nodeId : NodeId
  weight : ℚ
  surface : Surface
  isHilly : Bool
  deriving DecidableEq, Repr

/-- GraphNode from offlineRoutingEngine.ts. -/
structure GraphNode where
  id : NodeId
  lat : ℚ
  lng : ℚ
  neighbors : List GraphEdge
  deriving DecidableEq, Repr

/-- Model of the JavaScript expression (v || Infinity) on the number domain
used by the engine (rationals plus Infinity): undefined never occurs at the
use sites, but the value 0 is falsy and is mapped to Infinity. -/
def jsOr (v : WithTop ℚ) : WithTop ℚ :=
  if v = 0 then ⊤ else v

/-- Model of Math.sign on rationals. -/
def jsSign (x : ℚ) : ℚ :=
  if 0 < x then 1 else if x < 0 then -1 else 0

/-- Truncation toward zero, as used by the JavaScript remainder operator. -/
def jsTrunc (x : ℚ) : ℤ :=
  if 0 ≤ x then ⌊x⌋ else ⌈x⌉

/-- Model of the JavaScript remainder operator a % n (sign of the dividend). -/
def jsMod (a n : ℚ) : ℚ :=
  a - n * (jsTrunc (a / n) : ℚ)

/-- The wrapping idiom (x + 360) % 360 used throughout the App component. -/
def wrap360 (x : ℚ) : ℚ :=
  jsMod (x + 360) 360

/-- First normalisation while loop of the App component:
while (headingError < -180) headingError += 360.
The loop adds 360 exactly ceil((-180 - x) / 360) times; the definition is
that closed form, and the theorems addUp_step and addUp_base prove that it
satisfies the defining equations of the while loop. -/
def addUp (x : ℚ) : ℚ :=
  if x < -180 then x + 360 * (⌈(-180 - x) / 360⌉ : ℚ) else x

/-- Second normalisation while loop of the App component:
while (headingError > 180) headingError -= 360.
The loop subtracts 360 exactly ceil((x - 180) / 360) times; the definition
is that closed form, and the theorems subDown_step and subDown_base prove
that it satisfies the defining equations of the while loop. -/
def subDown (x : ℚ) : ℚ :=
  if 180 < x then x - 360 * (⌈(x - 180) / 360⌉ : ℚ) else x

/-- Signed shortest angular difference normalisation used by the App
component for heading errors and bearing differences: the two while loops
in sequence. -/
def normDiff (x : ℚ) : ℚ :=
  subDown (addUp x)

/-- Turn rate cap of the steering integrator:
Math.max(35, 120 - currentSpeed * 2.5). -/
def maxTurnRate (speed : ℚ) : ℚ :=
  max 35 (120 - speed * 2.5)

/-- Per-tick turn step: maxTurnRate * deltaTime. -/
def turnStep (speed dt : ℚ) : ℚ :=
  maxTurnRate speed * dt

/-- Heading error computation of the navigation loop: the raw difference
bearingToSteer - calculatedHeading, normalised by the two while loops. -/
def headingErrorOf (bearingToSteer calculatedHeading : ℚ) : ℚ :=
  normDiff (bearingToSteer - calculatedHeading)

/-- Steering integration of the navigation loop before the final wrap:
set the heading to the steering bearing when the error is within the turn
step, otherwise move it by the signed turn step. -/
def steerHeadingRaw (heading bearing speed dt : ℚ) : ℚ :=
  if |headingErrorOf bearing heading| ≤ turnStep speed dt then bearing
  else heading + jsSign (headingErrorOf bearing heading) * turnStep speed dt

/-- Steering integration including the final wrap
calculatedHeading = (calculatedHeading + 360) % 360. -/
def steerHeading (heading bearing speed dt : ℚ) : ℚ :=
  wrap360 (steerHeadingRaw heading bearing speed dt)

/-- Per-tick sensor heading derivation of the navigation loop:
((sensors.alpha || 0) + calibration.alphaOffset + 360) % 360. -/
def calculatedHeadingFromSensors (alpha alphaOffset : ℚ) : ℚ :=
  wrap360 (alpha + alphaOffset)

/-- Clamp of the target index at the top of the follow-road branch:
if (targetIdx >= routeCoordinates.length) targetIdx = length - 1. -/
def clampTargetIdx (idx len : ℕ) : ℕ :=
  if len ≤ idx then len - 1 else idx

/-- Waypoint progress update of the navigation loop: advance the next
route point index by one when the distance to the targeted route point
falls below max(5, currentSpeed), and only while it is below the last
index. -/
def advanceWaypoint (idx len : ℕ) (distToNext speed : ℚ) : ℕ :=
  if distToNext < max 5 speed then
    (if idx < len - 1 then idx + 1 else idx)
  else idx

/-- Iterated waypoint progress over a sequence of ticks; each observation
carries the measured distance to the targeted point and the current speed. -/
def advanceTicks (len : ℕ) (obs : List (ℚ × ℚ)) (idx : ℕ) : ℕ :=
  obs.foldl (fun i o => advanceWaypoint i len o.1 o.2) idx

/-- Reset performed whenever a new route is installed (the route-change
effect and handleSetDestination both set the index to 1). -/
def resetNextRoutePointIndex : ℕ := 1

/-- Penalised edge cost of the A star engine: start from the physical
weight, multiply by 3.0 for an unpaved edge when preferPaved is set, by 5.0
for a hilly edge when avoidHills is set, and by 2.0 for a paved edge when
allowHighways is strictly equal to false.  The three conditions mirror
options?.preferPaved, options?.avoidHills and
options?.allowHighways === false on an optional options object. -/
def adjustedEdgeCost (options : Option RoutingOptions) (neighbor : GraphEdge) : ℚ :=
  let c1 := neighbor.weight
  let c2 := if (match options with
                | some o => o.preferPaved
                | none => false) = true ∧ neighbor.surface = Surface.unpaved
            then c1 * 3 else c1
  let c3 := if (match options with
                | some o => o.avoidHills
                | none => false) = true ∧ neighbor.isHilly = true
            then c2 * 5 else c2
  let c4 := if (match options with
                | some o => o.allowHighways == false
                | none => false) = true ∧ neighbor.surface = Surface.paved
            then c3 * 2 else c3
  c4

/-- Raw node table of the demo graph (RAW_NODES in the source), with the
exact decimal coordinates as rationals. -/
def RAW_NODES : List (NodeId × ℚ × ℚ) :=
  [ (NodeId.n1, 26.9124, 75.7873)
  , (NodeId.n2, 26.9124, 75.7923)
  , (NodeId.n3, 26.9124, 75.7823)
  , (NodeId.n4, 26.9169, 75.7873)
  , (NodeId.n5, 26.9169, 75.7923)
  , (NodeId.n6, 26.9169, 75.7823)
  , (NodeId.n7, 26.9079, 75.7873)
  , (NodeId.n8, 26.9079, 75.7923)
  , (NodeId.n9, 26.9079, 75.7823)
  , (NodeId.n10, 26.9124, 75.7973)
  , (NodeId.n11, 26.9169, 75.7973)
  , (NodeId.n12, 26.9079, 75.7973)
  , (NodeId.n13, 26.9124, 75.7773)
  , (NodeId.n14, 26.9169, 75.7773)
  , (NodeId.n15, 26.9079, 75.7773)
  , (NodeId.n16, 26.9200, 75.7900)
  , (NodeId.n17, 26.9050, 75.7850) ]

/-- Graph population step: every raw node enters the map with an empty
neighbor list. -/
def initialGraph : List GraphNode :=
  RAW_NODES.map (fun t => { id := t.1, lat := t.2.1, lng := t.2.2, neighbors := [] })

/-- Bidirectional edge insertion (addEdge in the source).  The edge weight
is the distance between the two endpoint nodes computed by the distance
function distFn, which stands for the float haversine calculateDistance. -/
def addEdge (distFn : Coordinates ℚ → Coordinates ℚ → ℚ) (g : List GraphNode)
    (id1 id2 : NodeId) (surface : Surface) (isHilly : Bool) : List GraphNode :=
  match g.find? (fun n => n.id == id1), g.find? (fun n => n.id == id2) with
  | some node1, some node2 =>
      let d := distFn { lat := node1.lat, lng := node1.lng } { lat := node2.lat, lng := node2.lng }
      g.map (fun n =>
        if n.id = id1 then
          { n with neighbors := n.neighbors ++ [{ nodeId := id2, weight := d, surface := surface, isHilly := isHilly }] }
        else if n.id = id2 then
          { n with neighbors := n.neighbors ++ [{ nodeId := id1, weight := d, surface := surface, isHilly := isHilly }] }
        else n)
  | _, _ => g

/-- The edge definition list, in the exact order of the addEdge calls in
the source (the pair n15-n9 / n9-n15 is genuinely inserted twice there). -/
def EDGE_DEFS : List (NodeId × NodeId × Surface × Bool) :=
  [ (NodeId.n3, NodeId.n1, Surface.paved, false)
  , (NodeId.n1, NodeId.n2, Surface.paved, false)
  , (NodeId.n2, NodeId.n10, Surface.paved, false)
  , (NodeId.n13, NodeId.n3, Surface.unpaved, true)
  , (NodeId.n6, NodeId.n4, Surface.paved, false)
  , (NodeId.n4, NodeId.n5, Surface.paved, false)
  , (NodeId.n5, NodeId.n11, Surface.paved, false)
  , (NodeId.n14, NodeId.n6, Surface.unpaved, false)
  , (NodeId.n9, NodeId.n7, Surface.unpaved, false)
  , (NodeId.n7, NodeId.n8, Surface.paved, false)
  , (NodeId.n8, NodeId.n12, Surface.unpaved, true)
  , (NodeId.n15, NodeId.n9, Surface.unpaved, true)
  , (NodeId.n6, NodeId.n3, Surface.paved, false)
  , (NodeId.n3, NodeId.n9, Surface.unpaved, false)
  , (NodeId.n9, NodeId.n15, Surface.unpaved, false)
  , (NodeId.n4, NodeId.n1, Surface.paved, false)
  , (NodeId.n1, NodeId.n7, Surface.paved, false)
  , (NodeId.n7, NodeId.n17, Surface.unpaved, false)
  , (NodeId.n5, NodeId.n2, Surface.paved, false)
  , (NodeId.n2, NodeId.n8, Surface.paved, false)
  , (NodeId.n11, NodeId.n10, Surface.unpaved, false)
  , (NodeId.n10, NodeId.n12, Surface.unpaved, false)
  , (NodeId.n14, NodeId.n13, Surface.unpaved, false)
  , (NodeId.n13, NodeId.n15, Surface.unpaved, false)
  , (NodeId.n4, NodeId.n16, Surface.unpaved, true)
  , (NodeId.n16, NodeId.n5, Surface.unpaved, false) ]

/-- The populated demo graph: all addEdge calls applied in order to the
initial node map. -/
def graph (distFn : Coordinates ℚ → Coordinates ℚ → ℚ) : List GraphNode :=
  EDGE_DEFS.foldl (fun g e => addEdge distFn g e.1 e.2.1 e.2.2.1 e.2.2.2) initialGraph

/-- Nearest node lookup (findNearestNode in the source): linear scan over
the map in insertion order, keeping the strictly closest node seen so far;
the running minimum starts at Infinity. -/
def findNearestNode (distFn : Coordinates ℚ → Coordinates ℚ → ℚ)
    (g : List GraphNode) (target : Coordinates ℚ) : Option GraphNode :=
  (g.foldl
    (fun acc node =>
      if ((distFn target { lat := node.lat, lng := node.lng } : ℚ) : WithTop ℚ) < acc.2 then
        (some node, ((distFn target { lat := node.lat, lng := node.lng } : ℚ) : WithTop ℚ))
      else acc)
    ((none, ⊤) : Option GraphNode × WithTop ℚ)).1

/-- Mutable map update with JavaScript Map.set semantics: overwrite the
entry when the key is present, append otherwise. -/
def mapSet (m : List (NodeId × NodeId)) (k v : NodeId) : List (NodeId × NodeId) :=
  if m.any (fun p => p.1 == k) then
    m.map (fun p => if p.1 = k then (k, v) else p)
  else m ++ [(k, v)]

/-- Pointwise score-map update, modelling gScore.set / fScore.set. -/
def setScore (m : NodeId → WithTop ℚ) (k : NodeId) (v : WithTop ℚ) : NodeId → WithTop ℚ :=
  fun x => if x = k then v else m x

/-- State of the A star while loop. -/
structure AStarState where
  openSet : List NodeId
  cameFrom : List (NodeId × NodeId)
  gScore : NodeId → WithTop ℚ
  fScore : NodeId → WithTop ℚ

/-- Stable insertion of a node into a list sorted by a key, placing the
node after entries with an equal key. -/
def insertSorted (key : NodeId → WithTop ℚ) (a : NodeId) : List NodeId → List NodeId
  | [] => [a]
  | b :: bs => if key a < key b then a :: b :: bs else b :: insertSorted key a bs

/-- Deterministic stable sort by f-score, modelling
openSet.sort((a, b) => (fScore.get(a) || Infinity) - (fScore.get(b) || Infinity)). -/
def sortByFScore (key : NodeId → WithTop ℚ) (l : List NodeId) : List NodeId :=
  l.foldl (fun acc x => insertSorted key x acc) []

/-- Back-pointer walk of reconstructPath: follow cameFrom from the current
node until a node with no predecessor, accumulating ids root-first.  The
while loop is modelled with fuel; the caller passes one more than the map
size, which is enough for every acyclic predecessor map. -/
def backWalk (fuel : ℕ) (cameFrom : List (NodeId × NodeId)) (cur : NodeId) : Option (List NodeId) :=
  match fuel with
  | 0 => none
  | fuel + 1 =>
      match (cameFrom.find? (fun p => p.1 == cur)).map (fun p => p.2) with
      | none => some [cur]
      | some prev => (backWalk fuel cameFrom prev).map (fun ids => ids ++ [cur])

/-- Coordinate of a node id in a node list (graph.get(id) followed by the
lat and lng projections); the fallback branch is unreachable on the ids
produced by the engine. -/
def nodeCoordOf (g : List GraphNode) (id : NodeId) : Coordinates ℚ :=
  match g.find? (fun n => n.id == id) with
  | some n => { lat := n.lat, lng := n.lng }
  | none => { lat := 0, lng := 0 }

/-- reconstructPath from the source: map the back-pointer node path to
coordinates, then unshift the original start in front and push the original
end at the back.  Note that the coordinate of the first node of the walk
(the snapped start node) is kept, not replaced. -/
def reconstructPath (fuel : ℕ) (cameFrom : List (NodeId × NodeId)) (currentId : NodeId)
    (originalStart originalEnd : Coordinates ℚ) (g : List GraphNode) :
    Option (List (Coordinates ℚ)) :=
  (backWalk fuel cameFrom currentId).map
    (fun ids => originalStart :: (ids.map (nodeCoordOf g) ++ [originalEnd]))

/-- One pass over the neighbors of the current node (the for loop of the
A star body): compute the penalised edge cost, form the tentative g-score
through the falsy-aware (g || Infinity) coercion, and relax the neighbor on
strict improvement, pushing it into the open set when absent. -/
def relaxStep (distFn : Coordinates ℚ → Coordinates ℚ → ℚ)
    (options : Option RoutingOptions) (endNode : GraphNode) (g : List GraphNode)
    (currentId : NodeId) (st : AStarState) (neighbor : GraphEdge) : AStarState :=
  let edgeCost := adjustedEdgeCost options neighbor
  let tentativeG := jsOr (st.gScore currentId) + (edgeCost : WithTop ℚ)
  if tentativeG < jsOr (st.gScore neighbor.nodeId) then
    let neighborNode := (g.find? (fun n => n.id == neighbor.nodeId)).getD
      { id := neighbor.nodeId, lat := 0, lng := 0, neighbors := [] }
    { cameFrom := mapSet st.cameFrom neighbor.nodeId currentId
      gScore := setScore st.gScore neighbor.nodeId tentativeG
      fScore := setScore st.fScore neighbor.nodeId
        (tentativeG + ((distFn { lat := neighborNode.lat, lng := neighborNode.lng }
                               { lat := endNode.lat, lng := endNode.lng } : ℚ) : WithTop ℚ))
      openSet := if st.openSet.contains neighbor.nodeId then st.openSet
                 else st.openSet ++ [neighbor.nodeId] }
  else st

/-- The full neighbor pass folds the relaxation step over the neighbor
list of the current node, in list order. -/
def relaxNeighbors (distFn : Coordinates ℚ → Coordinates ℚ → ℚ)
    (options : Option RoutingOptions) (endNode : GraphNode) (g : List GraphNode)
    (currentId : NodeId) (neighbors : List GraphEdge) (st : AStarState) : AStarState :=
  neighbors.foldl (relaxStep distFn options endNode g currentId) st

/-- The A star while loop, with fuel standing for the unbounded iteration:
sort the open set by f-score, pop the head, return the reconstructed path
when the end node is popped, otherwise relax the neighbors and continue;
an emptied open set yields the direct fallback segment. -/
def astarLoop (distFn : Coordinates ℚ → Coordinates ℚ → ℚ)
    (options : Option RoutingOptions) (startC endC : Coordinates ℚ)
    (endNode : GraphNode) (g : List GraphNode) :
    ℕ → AStarState → Option (List (Coordinates ℚ))
  | 0, st => if st.openSet.isEmpty then some [startC, endC] else none
  | fuel + 1, st =>
      if st.openSet.isEmpty then some [startC, endC]
      else
        match sortByFScore (fun id => jsOr (st.fScore id)) st.openSet with
        | [] => some [startC, endC]
        | currentId :: rest =>
            if currentId = endNode.id then
              reconstructPath (st.cameFrom.length + 1) st.cameFrom currentId startC endC g
            else
              let current := (g.find? (fun n => n.id == currentId)).getD
                { id := currentId, lat := 0, lng := 0, neighbors := [] }
              astarLoop distFn options startC endC endNode g fuel
                (relaxNeighbors distFn options endNode g currentId current.neighbors
                  { st with openSet := rest })

/-- Dispatch on the two nearest-node lookups of calculateOfflineRoute:
either lookup failing, or both snapping to the same node, yields the
direct segment; otherwise the A star loop runs from the initial state. -/
def routeFromNearest (distFn : Coordinates ℚ → Coordinates ℚ → ℚ) (fuel : ℕ)
    (start end_ : Coordinates ℚ) (options : Option RoutingOptions)
    (g : List GraphNode) :
    Option GraphNode → Option GraphNode → Option (List (Coordinates ℚ))
  | none, _ => some [start, end_]
  | some _, none => some [start, end_]
  | some startNode, some endNode =>
      if startNode.id = endNode.id then some [start, end_]
      else
        astarLoop distFn options start end_ endNode g fuel
          { openSet := [startNode.id]
            cameFrom := []
            gScore := fun id => if id = startNode.id then 0 else ⊤
            fScore := fun id =>
              if id = startNode.id then
                ((distFn { lat := startNode.lat, lng := startNode.lng }
                         { lat := endNode.lat, lng := endNode.lng } : ℚ) : WithTop ℚ)
              else ⊤ }

/-- calculateOfflineRoute from the source, parametrised by the abstract
distance function and by the fuel of the while loop.  The none result marks
fuel exhaustion only; every return statement of the source maps to a some. -/
def calculateOfflineRoute (distFn : Coordinates ℚ → Coordinates ℚ → ℚ) (fuel : ℕ)
    (start end_ : Coordinates ℚ) (options : Option RoutingOptions) :
    Option (List (Coordinates ℚ)) :=
  routeFromNearest distFn fuel start end_ options (graph distFn)
    (findNearestNode distFn (graph distFn) start)
    (findNearestNode distFn (graph distFn) end_)

/-- Tail of the waypoint chaining loop of routingService.ts (the segments
with index i greater than 0): from the current point a through the listed
points in order, every segment contributes its points with the first
sliced off. -/
def chainTail (distFn : Coordinates ℚ → Coordinates ℚ → ℚ) (fuel : ℕ)
    (options : Option RoutingOptions) :
    Coordinates ℚ → List (Coordinates ℚ) → Option (List (Coordinates ℚ))
  | _, [] => some []
  | a, b :: rest => do
      let seg ← calculateOfflineRoute distFn fuel a b options
      let tl ← chainTail distFn fuel options b rest
      pure (seg.drop 1 ++ tl)

/-- calculateOfflineRouteWithWaypoints from routingService.ts: run the
engine on every consecutive pair of start :: waypoints ++ [end], keep the
first segment whole (loop index 0), and append every later segment with
its first point dropped. -/
def calculateOfflineRouteWithWaypoints (distFn : Coordinates ℚ → Coordinates ℚ → ℚ)
    (fuel : ℕ) (start end_ : Coordinates ℚ) (waypoints : List (Coordinates ℚ))
    (options : Option RoutingOptions) : Option (List (Coordinates ℚ)) :=
  match waypoints with
  | [] => calculateOfflineRoute distFn fuel start end_ options
  | b :: rest => do
      let seg ← calculateOfflineRoute distFn fuel start b options
      let tl ← chainTail distFn fuel options b (rest ++ [end_])
      pure (seg ++ tl)

/-- Maneuver kinds of the maneuver detection effect.  The source pairs each
kind with a fixed instruction string; the string is determined by the kind
and is omitted from the model. -/
inductive ManeuverType where
  | straight
  | slightLeft
  | slightRight
  | left
  | right
  | sharpLeft
  | sharpRight
  | arrive
  deriving DecidableEq, Repr

/-- Effect outcome of the maneuver detection run: leave the stored maneuver
unchanged, clear it, or set it to a kind and a distance. -/
inductive ManeuverUpdate where
  | unchanged
  | cleared
  | set (ty : ManeuverType) (distance : ℚ)
  deriving DecidableEq, Repr

/-- Classification of a detected bearing change (only reached when its
absolute value exceeds 30 degrees). -/
def classifyTurn (diff : ℚ) : ManeuverType :=
  if 100 < |diff| then (if diff < 0 then ManeuverType.sharpLeft else ManeuverType.sharpRight)
  else if 45 < |diff| then (if diff < 0 then ManeuverType.left else ManeuverType.right)
  else (if diff < 0 then ManeuverType.slightLeft else ManeuverType.slightRight)

/-- Forward scan of the maneuver detection effect: iterate i from the
current index while i < min(length - 2, idx + 30), break beyond 1500 m of
accumulated lookahead, read the points at i, i+1 and i+2, and stop at the
first bearing change above 30 degrees.  The bearing function bearFn stands
for calculateBearing.  A none result marks an out-of-bounds point access,
which the safety theorem rules out. -/
def maneuverScanAux (distFn bearFn : Coordinates ℚ → Coordinates ℚ → ℚ)
    (route : List (Coordinates ℚ)) (stop : ℕ) :
    ℕ → ℕ → ℚ → Option (Option (ManeuverType × ℚ) × ℚ)
  | gas + 1, i, lookAheadDist =>
      if i < stop then
        if 1500 < lookAheadDist then some (none, lookAheadDist)
        else
          match route[i]?, route[i + 1]?, route[i + 2]? with
          | some pCurrent, some pNext, some pAfter =>
              let segDist := distFn pCurrent pNext
              let diff := normDiff (bearFn pNext pAfter - bearFn pCurrent pNext)
              if 30 < |diff| then some (some (classifyTurn diff, lookAheadDist), lookAheadDist)
              else maneuverScanAux distFn bearFn route stop gas (i + 1) (lookAheadDist + segDist)
          | _, _, _ => none
      else some (none, lookAheadDist)
  | 0, i, lookAheadDist =>
      if i < stop then none else some (none, lookAheadDist)

/-- Entry point of the forward scan: the loop increments i once per
iteration while i < stop, so stop - i bounds the iteration count and the
gas branch of the structural model is never reached. -/
def maneuverScan (distFn bearFn : Coordinates ℚ → Coordinates ℚ → ℚ)
    (route : List (Coordinates ℚ)) (stop : ℕ) (i : ℕ) (lookAheadDist : ℚ) :
    Option (Option (ManeuverType × ℚ) × ℚ) :=
  maneuverScanAux distFn bearFn route stop (stop - i) i lookAheadDist

/-- The maneuver detection effect of the App component: early exits when
not navigating or on a degenerate route, the arrival check against the
target location, and the forward turn scan with its continue-straight
fallback.  A none result marks an out-of-bounds route access. -/
def computeManeuver (distFn bearFn : Coordinates ℚ → Coordinates ℚ → ℚ)
    (route : List (Coordinates ℚ)) (navigating : Bool) (pos : Coordinates ℚ)
    (target : Option (Coordinates ℚ)) (idx : ℕ) : Option ManeuverUpdate :=
  if navigating = false ∨ route.length ≤ 1 then
    some (if navigating = false then ManeuverUpdate.cleared else ManeuverUpdate.unchanged)
  else
    let distToEnd := match target with
      | some t => distFn pos t
      | none => 0
    if route.length - 1 ≤ idx ∨ distToEnd < 20 then
      some (ManeuverUpdate.set ManeuverType.arrive distToEnd)
    else
      match route[idx]? with
      | none => none
      | some pt =>
          let distToTurn := distFn pos pt
          let stop := min (route.length - 2) (idx + 30)
          match maneuverScan distFn bearFn route stop idx 0 with
          | none => none
          | some (some (ty, la), _) => some (ManeuverUpdate.set ty (distToTurn + la))
          | some (none, la) =>
              some (ManeuverUpdate.set ManeuverType.straight (if 0 < la then la else distToEnd))

/-- Earth radius constant R = 6378137 of navigationService.ts. -/
noncomputable def R : ℝ := 6378137

/-- Degree to radian conversion of the geodesic primitives. -/
noncomputable def toRad (deg : ℝ) : ℝ := deg * Real.pi / 180

/-- Radian to degree conversion of the geodesic primitives. -/
noncomputable def toDeg (rad : ℝ) : ℝ := rad * 180 / Real.pi

/-- Real model of Math.atan2(y, x): the argument of the complex number with
real part x and imaginary part y, with principal value in the interval
from minus pi (excluded) to pi (included), and 0 at the origin, matching
Math.atan2(0, 0) = 0. -/
noncomputable def atan2 (y x : ℝ) : ℝ := Complex.arg (Complex.mk x y)

/-- calculateNewPosition from navigationService.ts over exact reals: the
direct spherical geodesic problem (destination point from start, distance
and bearing). -/
noncomputable def calculateNewPosition (start : Coordinates ℝ)
    (distanceMeters bearingDegrees : ℝ) : Coordinates ℝ :=
  let lat1 := toRad start.lat
  let lon1 := toRad start.lng
  let angularDistance := distanceMeters / R
  let bearingRad := toRad bearingDegrees
  let lat2 := Real.arcsin
    (Real.sin lat1 * Real.cos angularDistance +
      Real.cos lat1 * Real.sin angularDistance * Real.cos bearingRad)
  let lon2 := lon1 + atan2
    (Real.sin bearingRad * Real.sin angularDistance * Real.cos lat1)
    (Real.cos angularDistance - Real.sin lat1 * Real.sin lat2)
  { lat := toDeg lat2, lng := toDeg lon2 }

/-- calculateDistance from navigationService.ts over exact reals: the
haversine great-circle distance. -/
noncomputable def calculateDistance (p1 p2 : Coordinates ℝ) : ℝ :=
  let dLat := toRad (p2.lat - p1.lat)
  let dLon := toRad (p2.lng - p1.lng)
  let lat1 := toRad p1.lat
  let lat2 := toRad p2.lat
  let a := Real.sin (dLat / 2) * Real.sin (dLat / 2) +
    Real.sin (dLon / 2) * Real.sin (dLon / 2) * Real.cos lat1 * Real.cos lat2
  let c := 2 * atan2 (Real.sqrt a) (Real.sqrt (1 - a))
  R * c

/-- Truthiness of options?.preferPaved on an optional options object. -/
def prefersPaved (options : Option RoutingOptions) : Bool :=
  match options with
  | some o => o.preferPaved
  | none => false

/-- Truthiness of options?.avoidHills on an optional options object. -/
def avoidsHills (options : Option RoutingOptions) : Bool :=
  match options with
  | some o => o.avoidHills
  | none => false

/-- The strict check options?.allowHighways === false on an optional
options object. -/
def disallowsHighways (options : Option RoutingOptions) : Bool :=
  match options with
  | some o => o.allowHighways == false
  | none => false

/-- Correspondence between the consecutive point pairs of a waypoint chain
and the per-segment engine results. -/
def segsOk (distFn : Coordinates ℚ → Coordinates ℚ → ℚ) (fuel : ℕ)
    (options : Option RoutingOptions) :
    List (Coordinates ℚ) → List (List (Coordinates ℚ)) → Prop
  | [], [] => True
  | [_], [] => True
  | a :: b :: rest, seg :: more =>
      calculateOfflineRoute distFn fuel a b options = some seg ∧
        segsOk distFn fuel options (b :: rest) more
  | _, _ => False

/-- Concatenation shape of the waypoint chaining: the first segment whole,
every later segment with its first point dropped. -/
def concatSegs : List (List (Coordinates ℚ)) → List (Coordinates ℚ)
  | [] => []
  | s :: rest => s ++ (rest.map (fun t => t.drop 1)).flatten

/-- Junction alignment between consecutive segments: each segment ends
exactly where the next one starts, so dropping the first point of the next
segment removes precisely the duplicated junction coordinate. -/
def junctionsAligned : List (List (Coordinates ℚ)) → Prop
  | s :: t :: rest => s.getLast? = t.head? ∧ junctionsAligned (t :: rest)
  | _ => True

/-- Concrete computable stand-in distance function used to evaluate the
engine at specific inputs (the taxicab distance on coordinates). -/
def distManhattan (a b : Coordinates ℚ) : ℚ :=
  |a.lat - b.lat| + |a.lng - b.lng|

/-- Coordinate of graph node n1, used as a concrete start input. -/
def pStart : Coordinates ℚ := { lat := 26.9124, lng := 75.7873 }

/-- Coordinate of graph node n2, used as a concrete end input. -/
def pEnd : Coordinates ℚ := { lat := 26.9124, lng := 75.7923 }

/-- Concrete back-pointer map for the reconstructPath analysis: the node n2
was reached from the node n1. -/
def ceCameFrom : List (NodeId × NodeId) := [(NodeId.n2, NodeId.n1)]

/-- Concrete caller start coordinate distinct from every node coordinate. -/
def ceStart : Coordinates ℚ := { lat := 0, lng := 0 }

/-- Concrete caller end coordinate distinct from every node coordinate. -/
def ceEnd : Coordinates ℚ := { lat := 1, lng := 1 }

/-- Coordinate of graph node n3, used as a concrete waypoint input. -/
def pWest : Coordinates ℚ := { lat := 26.9124, lng := 75.7823 }

/-- Concrete unpaved hilly edge used to evaluate the cost function. -/
def wEdge : GraphEdge :=
  { nodeId := NodeId.n2, weight := 7, surface := Surface.unpaved, isHilly := true }

/-- Concrete options with both road preferences enabled. -/
def wOptions : Option RoutingOptions :=
  some { preferPaved := true, avoidHills := true, allowHighways := true }

/-- Per-pair direct segments of a point chain: the segment list produced
by the engine for consecutive pairs (used as the explicit witness for the
chain structure of the waypoint concatenation). -/
def directSegs : Coordinates ℚ → List (Coordinates ℚ) → List (List (Coordinates ℚ))
  | _, [] => []
  | a, b :: rest => [a, b] :: directSegs b rest

theorem addUp_base (x : ℚ) (h : ¬ x < -180) : addUp x = x := by
  rw [addUp, if_neg h]

theorem addUp_step (x : ℚ) (h : x < -180) : addUp x = addUp (x + 360) := by
  by_cases h2 : x + 360 < -180
  · rw [addUp, if_pos h, addUp, if_pos h2]
    have harg : (-180 - (x + 360)) / 360 = (-180 - x) / 360 - 1 := by ring
    rw [harg, Int.ceil_sub_one]
    push_cast
    ring
  · rw [addUp, if_pos h, addUp, if_neg h2]
    have hc : ⌈(-180 - x) / 360⌉ = 1 := by
      rw [Int.ceil_eq_iff]
      constructor
      · push_cast
        rw [lt_div_iff₀ (by norm_num)]
        linarith
      · push_cast
        rw [div_le_iff₀ (by norm_num)]
        linarith
    rw [hc]
    push_cast
    ring

theorem subDown_base (x : ℚ) (h : ¬ 180 < x) : subDown x = x := by
  rw [subDown, if_neg h]

theorem subDown_step (x : ℚ) (h : 180 < x) : subDown x = subDown (x - 360) := by
  by_cases h2 : 180 < x - 360
  · rw [subDown, if_pos h, subDown, if_pos h2]
    have harg : (x - 360 - 180) / 360 = (x - 180) / 360 - 1 := by ring
    rw [harg, Int.ceil_sub_one]
    push_cast
    ring
  · rw [subDown, if_pos h, subDown, if_neg h2]
    have hc : ⌈(x - 180) / 360⌉ = 1 := by
      rw [Int.ceil_eq_iff]
      constructor
      · push_cast
        rw [lt_div_iff₀ (by norm_num)]
        linarith
      · push_cast
        rw [div_le_iff₀ (by norm_num)]
        linarith
    rw [hc]
    push_cast
    ring

theorem addUp_lb (x : ℚ) : -180 ≤ addUp x := by
  rw [addUp]
  split_ifs with h
  · have hle := Int.le_ceil ((-180 - x) / 360)
    have : -180 - x ≤ 360 * (⌈(-180 - x) / 360⌉ : ℚ) := by
      rw [mul_comm]
      calc -180 - x = ((-180 - x) / 360) * 360 := by ring
        _ ≤ (⌈(-180 - x) / 360⌉ : ℚ) * 360 := by
            exact mul_le_mul_of_nonneg_right hle (by norm_num)
    linarith
  · linarith

theorem addUp_ub (x : ℚ) (h : x < -180) : addUp x < 180 := by
  rw [addUp, if_pos h]
  have hlt := Int.ceil_lt_add_one ((-180 - x) / 360)
  have : 360 * (⌈(-180 - x) / 360⌉ : ℚ) < -180 - x + 360 := by
    rw [mul_comm]
    calc (⌈(-180 - x) / 360⌉ : ℚ) * 360 < ((-180 - x) / 360 + 1) * 360 :=
          mul_lt_mul_of_pos_right hlt (by norm_num)
      _ = -180 - x + 360 := by ring
  linarith

theorem addUp_of_ge (x : ℚ) (h : -180 ≤ x) : addUp x = x := by
  rw [addUp, if_neg (by linarith)]

theorem subDown_ub (x : ℚ) : subDown x ≤ 180 := by
  rw [subDown]
  split_ifs with h
  · have hle := Int.le_ceil ((x - 180) / 360)
    have : x - 180 ≤ 360 * (⌈(x - 180) / 360⌉ : ℚ) := by
      rw [mul_comm]
      calc x - 180 = ((x - 180) / 360) * 360 := by ring
        _ ≤ (⌈(x - 180) / 360⌉ : ℚ) * 360 := by
            exact mul_le_mul_of_nonneg_right hle (by norm_num)
    linarith
  · linarith

theorem subDown_of_le (x : ℚ) (h : x ≤ 180) : subDown x = x := by
  rw [subDown, if_neg (by linarith)]

theorem subDown_lb (x : ℚ) (h : -180 ≤ x) : -180 ≤ subDown x := by
  rw [subDown]
  split_ifs with h2
  · have hlt := Int.ceil_lt_add_one ((x - 180) / 360)
    have : 360 * (⌈(x - 180) / 360⌉ : ℚ) < x - 180 + 360 := by
      rw [mul_comm]
      calc (⌈(x - 180) / 360⌉ : ℚ) * 360 < ((x - 180) / 360 + 1) * 360 :=
            mul_lt_mul_of_pos_right hlt (by norm_num)
        _ = x - 180 + 360 := by ring
    linarith
  · exact h

theorem normDiff_lb (x : ℚ) : -180 ≤ normDiff x :=
  subDown_lb (addUp x) (addUp_lb x)

theorem normDiff_ub (x : ℚ) : normDiff x ≤ 180 :=
  subDown_ub (addUp x)

theorem normDiff_abs_le (x : ℚ) : |normDiff x| ≤ 180 :=
  abs_le.mpr ⟨normDiff_lb x, normDiff_ub x⟩

theorem normDiff_eq_self (x : ℚ) (h1 : -180 ≤ x) (h2 : x ≤ 180) : normDiff x = x := by
  rw [normDiff, addUp_of_ge x h1, subDown_of_le x h2]

theorem jsSign_abs_le_one (x : ℚ) : |jsSign x| ≤ 1 := by
  rw [jsSign]
  split_ifs <;> norm_num

theorem jsSign_abs_of_ne (x : ℚ) (h : x ≠ 0) : |jsSign x| = 1 := by
  rw [jsSign]
  rcases lt_trichotomy 0 x with h1 | h1 | h1
  · rw [if_pos h1]; norm_num
  · exact absurd h1.symm h
  · rw [if_neg (by linarith), if_pos h1]; norm_num

theorem maxTurnRate_ge (speed : ℚ) : 35 ≤ maxTurnRate speed :=
  le_max_left _ _

theorem turnStep_nonneg (speed dt : ℚ) (hdt : 0 ≤ dt) : 0 ≤ turnStep speed dt :=
  mul_nonneg (le_trans (by norm_num) (maxTurnRate_ge speed)) hdt

theorem wrap360_eq_self (x : ℚ) (h0 : 0 ≤ x) (h1 : x < 360) : wrap360 x = x := by
  have htr : jsTrunc ((x + 360) / 360) = 1 := by
    rw [jsTrunc, if_pos (by positivity)]
    rw [Int.floor_eq_iff]
    constructor
    · push_cast
      rw [le_div_iff₀ (by norm_num)]
      linarith
    · push_cast
      rw [div_lt_iff₀ (by norm_num)]
      linarith
  rw [wrap360, jsMod, htr]
  push_cast
  ring

theorem wrap360_sub_mul (x : ℚ) : ∃ k : ℤ, wrap360 x = x + 360 * k := by
  refine ⟨1 - jsTrunc ((x + 360) / 360), ?_⟩
  rw [wrap360, jsMod]
  push_cast
  ring

theorem normDiff_of_lt (x : ℚ) (h1 : -540 ≤ x) (h2 : x < -180) : normDiff x = x + 360 := by
  rw [normDiff, addUp_step _ h2, addUp_of_ge _ (by linarith), subDown_of_le _ (by linarith)]

/-- Claim C2, counterexample: the per-tick heading variable of the live
loop is NOT an accumulated unwrapped quantity.  At heading 350 steering
toward bearing 30 (speed 0, delta-time 1) the stored heading jumps from
350 to 30, a numeric jump of 320 that exceeds the per-tick turn cap of
120; and at heading 350 steering toward bearing 80 with delta-time 1/4 the
integrator output 380 is wrapped by the modulo to 20. -/
theorem claim_C2_counterexample :
    steerHeading 350 30 0 1 = 30 ∧
    ¬ |steerHeading 350 30 0 1 - 350| ≤ turnStep 0 1 ∧
    steerHeadingRaw 350 80 0 (1 / 4) = 380 ∧
    steerHeading 350 80 0 (1 / 4) = 20 := by
  have herr1 : headingErrorOf 30 350 = 40 := by
    rw [headingErrorOf]
    have : (30 : ℚ) - 350 = -320 := by norm_num
    rw [this, normDiff_of_lt (-320) (by norm_num) (by norm_num)]
    norm_num
  have hstep1 : turnStep 0 1 = 120 := by
    rw [turnStep, maxTurnRate]
    norm_num
  have hraw1 : steerHeadingRaw 350 30 0 1 = 30 := by
    rw [steerHeadingRaw, if_pos]
    rw [herr1, hstep1]
    norm_num
  have hsh1 : steerHeading 350 30 0 1 = 30 := by
    rw [steerHeading, hraw1, wrap360_eq_self 30 (by norm_num) (by norm_num)]
  have herr2 : headingErrorOf 80 350 = 90 := by
    rw [headingErrorOf]
    have : (80 : ℚ) - 350 = -270 := by norm_num
    rw [this, normDiff_of_lt (-270) (by norm_num) (by norm_num)]
    norm_num
  have hstep2 : turnStep 0 (1 / 4) = 30 := by
    rw [turnStep, maxTurnRate]
    norm_num
  have hraw2 : steerHeadingRaw 350 80 0 (1 / 4) = 380 := by
    rw [steerHeadingRaw, if_neg]
    · rw [herr2, hstep2, jsSign, if_pos (by norm_num)]
      norm_num
    · rw [herr2, hstep2]
      norm_num
  have hsh2 : steerHeading 350 80 0 (1 / 4) = 20 := by
    rw [steerHeading, hraw2, wrap360, jsMod, jsTrunc]
    norm_num
  exact ⟨hsh1, by rw [hsh1, hstep1]; norm_num, hraw2, hsh2⟩

/-- Claim C2, amended: the live loop does not carry an accumulated
unwrapped heading; the per-tick heading variable incorporates new bearings
through the signed shortest angular difference, the per-tick change is
capped by the turn step only in the angular (shortest-difference) sense,
and the stored value is wrapped into a 360-degree window by the modulo
idiom (so it can jump numerically at the 0/360 boundary). -/
theorem claim_C2_amended (heading bearing speed dt : ℚ) (hdt : 0 ≤ dt) :
    |normDiff (steerHeadingRaw heading bearing speed dt - heading)| ≤ turnStep speed dt
    ∧ ∃ k : ℤ, steerHeading heading bearing speed dt
        = steerHeadingRaw heading bearing speed dt + 360 * k := by
  refine ⟨?_, wrap360_sub_mul _⟩
  by_cases hc : |headingErrorOf bearing heading| ≤ turnStep speed dt
  · rw [steerHeadingRaw, if_pos hc]
    exact hc
  · rw [steerHeadingRaw, if_neg hc]
    have h1 : heading + jsSign (headingErrorOf bearing heading) * turnStep speed dt - heading
        = jsSign (headingErrorOf bearing heading) * turnStep speed dt := by ring
    rw [h1]
    have hstep0 : 0 ≤ turnStep speed dt := turnStep_nonneg _ _ hdt
    have habs : |jsSign (headingErrorOf bearing heading) * turnStep speed dt|
        ≤ turnStep speed dt := by
      rw [abs_mul, abs_of_nonneg hstep0]
      calc |jsSign (headingErrorOf bearing heading)| * turnStep speed dt
          ≤ 1 * turnStep speed dt :=
            mul_le_mul_of_nonneg_right (jsSign_abs_le_one _) hstep0
        _ = turnStep speed dt := one_mul _
  /- Case split on the size of the turn step relative to 180. -/
    by_cases h2 : turnStep speed dt ≤ 180
    · rw [normDiff_eq_self]
      · exact habs
      · have := abs_le.mp (le_trans habs h2)
        exact this.1
      · have := abs_le.mp (le_trans habs h2)
        exact this.2
    · exact le_trans (normDiff_abs_le _) (by linarith)

/-- Witness for the amended claim C2 at a concrete tick. -/
theorem claim_C2_witness :
    (0 : ℚ) ≤ 1 ∧
    |normDiff (steerHeadingRaw 0 0 0 1 - 0)| ≤ turnStep 0 1 :=
  ⟨by norm_num, (claim_C2_amended 0 0 0 1 (by norm_num)).1⟩

/-- Claim C8: in route-following mode the per-tick heading change toward
the steering bearing is capped by a turn step equal to
max(35, 120 - 2.5 * speed) * deltaTime; the cap never falls below the
35 degrees per second floor and shrinks as speed increases; when the
normalised heading error is within the step the heading is set exactly to
the steering bearing, and otherwise the integrator moves the heading by
exactly the signed turn step. -/
theorem claim_C8_turn_cap (heading bearing speed dt : ℚ)
    (hb0 : 0 ≤ bearing) (hb1 : bearing < 360) (hdt : 0 ≤ dt) :
    turnStep speed dt = max 35 (120 - speed * 2.5) * dt
    ∧ 35 * dt ≤ turnStep speed dt
    ∧ (∀ faster, speed ≤ faster → turnStep faster dt ≤ turnStep speed dt)
    ∧ (|headingErrorOf bearing heading| ≤ turnStep speed dt →
        steerHeading heading bearing speed dt = bearing)
    ∧ (turnStep speed dt < |headingErrorOf bearing heading| →
        steerHeadingRaw heading bearing speed dt - heading
            = jsSign (headingErrorOf bearing heading) * turnStep speed dt
          ∧ |steerHeadingRaw heading bearing speed dt - heading| = turnStep speed dt) := by
  refine ⟨rfl, ?_, ?_, ?_, ?_⟩
  · exact mul_le_mul_of_nonneg_right (le_max_left _ _) hdt
  · intro faster hf
    refine mul_le_mul_of_nonneg_right ?_ hdt
    exact max_le_max le_rfl (by linarith)
  · intro hc
    rw [steerHeading, steerHeadingRaw, if_pos hc, wrap360_eq_self bearing hb0 hb1]
  · intro hc
    have hraw : steerHeadingRaw heading bearing speed dt - heading
        = jsSign (headingErrorOf bearing heading) * turnStep speed dt := by
      rw [steerHeadingRaw, if_neg (by linarith)]
      ring
    refine ⟨hraw, ?_⟩
    rw [hraw, abs_mul]
    have hstep0 : 0 ≤ turnStep speed dt := turnStep_nonneg _ _ hdt
    have herrne : headingErrorOf bearing heading ≠ 0 := by
      intro h0
      rw [h0] at hc
      simp at hc
      linarith
    rw [jsSign_abs_of_ne _ herrne, one_mul, abs_of_nonneg hstep0]

/-- Witness for claim C8 at heading 0, bearing 90, speed 0, delta-time 1. -/
theorem claim_C8_witness :
    (0 : ℚ) ≤ 90 ∧ steerHeading 0 90 0 1 = 90 := by
  have h := claim_C8_turn_cap 0 90 0 1 (by norm_num) (by norm_num) (by norm_num)
  refine ⟨by norm_num, h.2.2.2.1 ?_⟩
  have herr : headingErrorOf 90 0 = 90 := by
    rw [headingErrorOf]
    norm_num
    exact normDiff_eq_self 90 (by norm_num) (by norm_num)
  have hstep : turnStep 0 1 = 120 := by
    rw [turnStep, maxTurnRate]
    norm_num
  rw [herr, hstep]
  norm_num

/-- Claim C7: within one installed route, the next-waypoint index never
decreases and increases by at most one per tick, an increase happens only
when the measured distance to the targeted route point falls below the
speed-scaled threshold max(5, speed) while the index is below the last
route position, and installing a new route resets the index to 1. -/
theorem claim_C7_waypoint_monotone (idx len : ℕ) (distToNext speed : ℚ)
    (obs : List (ℚ × ℚ)) :
    (advanceWaypoint idx len distToNext speed = idx
      ∨ (advanceWaypoint idx len distToNext speed = idx + 1
          ∧ distToNext < max 5 speed ∧ idx < len - 1))
    ∧ idx ≤ advanceWaypoint idx len distToNext speed
    ∧ advanceWaypoint idx len distToNext speed ≤ idx + 1
    ∧ idx ≤ advanceTicks len obs idx
    ∧ resetNextRoutePointIndex = 1 := by
  have hstep : ∀ j d s, j ≤ advanceWaypoint j len d s ∧ advanceWaypoint j len d s ≤ j + 1 := by
    intro j d s
    rw [advanceWaypoint]
    split_ifs <;> omega
  refine ⟨?_, (hstep idx distToNext speed).1, (hstep idx distToNext speed).2, ?_, rfl⟩
  · rw [advanceWaypoint]
    split_ifs with h1 h2
    · exact Or.inr ⟨rfl, h1, h2⟩
    · exact Or.inl rfl
    · exact Or.inl rfl
  · rw [advanceTicks]
    induction obs generalizing idx with
    | nil => exact le_refl idx
    | cons o rest ih =>
        simp only [List.foldl_cons]
        exact le_trans (hstep idx o.1 o.2).1 (ih _)

/-- Claim C3: the penalised edge cost of the Pathfinder equals the physical
weight multiplied independently by 3 for an unpaved edge under preferPaved,
by 5 for a hilly edge under avoidHills, and by 2 for a paved edge when
allowHighways is strictly false; the multipliers stack, so an unpaved hilly
edge under both road preferences costs 15 times its weight. -/
theorem claim_C3_edge_cost (options : Option RoutingOptions) (e : GraphEdge) :
    adjustedEdgeCost options e =
      e.weight
        * (if prefersPaved options = true ∧ e.surface = Surface.unpaved then 3 else 1)
        * (if avoidsHills options = true ∧ e.isHilly = true then 5 else 1)
        * (if disallowsHighways options = true ∧ e.surface = Surface.paved then 2 else 1)
    ∧ (e.surface = Surface.unpaved → e.isHilly = true → prefersPaved options = true →
        avoidsHills options = true → adjustedEdgeCost options e = 15 * e.weight) := by
  have hmain : adjustedEdgeCost options e =
      e.weight
        * (if prefersPaved options = true ∧ e.surface = Surface.unpaved then 3 else 1)
        * (if avoidsHills options = true ∧ e.isHilly = true then 5 else 1)
        * (if disallowsHighways options = true ∧ e.surface = Surface.paved then 2 else 1) := by
    simp only [adjustedEdgeCost, prefersPaved, avoidsHills, disallowsHighways]
    split_ifs <;> ring
  refine ⟨hmain, ?_⟩
  intro h1 h2 h3 h4
  rw [hmain, if_pos ⟨h3, h1⟩, if_pos ⟨h4, h2⟩, if_neg]
  · ring
  · rintro ⟨-, hp⟩
    rw [h1] at hp
    exact absurd hp (by simp)

/-- Witness for claim C3 on a concrete unpaved hilly edge of weight 7 with
both preferences enabled: the adjusted cost is 105 = 15 * 7. -/
theorem claim_C3_witness :
    wEdge.surface = Surface.unpaved ∧ adjustedEdgeCost wOptions wEdge = 15 * wEdge.weight := by
  have h := (claim_C3_edge_cost wOptions wEdge).2 (by decide) (by decide) (by decide) (by decide)
  exact ⟨by decide, h⟩

theorem maneuverScanAux_isSome (distFn bearFn : Coordinates ℚ → Coordinates ℚ → ℚ)
    (route : List (Coordinates ℚ)) (stop : ℕ) (hstop : stop ≤ route.length - 2) :
    ∀ gas i la, stop - i ≤ gas →
      (maneuverScanAux distFn bearFn route stop gas i la).isSome = true := by
  intro gas
  induction gas with
  | zero =>
      intro i la h
      rw [maneuverScanAux, if_neg (by omega)]
      rfl
  | succ gas ih =>
      intro i la h
      rw [maneuverScanAux]
      by_cases hi : i < stop
      · rw [if_pos hi]
        by_cases hla : 1500 < la
        · rw [if_pos hla]
          rfl
        · rw [if_neg hla]
          have h0 : i < route.length := by omega
          have h1 : i + 1 < route.length := by omega
          have h2 : i + 2 < route.length := by omega
          rw [List.getElem?_eq_getElem h0, List.getElem?_eq_getElem h1,
            List.getElem?_eq_getElem h2]
          dsimp only
          split_ifs with hdiff
          · rfl
          · exact ih (i + 1) _ (by omega)
      · rw [if_neg hi]
        rfl

theorem maneuverScan_isSome (distFn bearFn : Coordinates ℚ → Coordinates ℚ → ℚ)
    (route : List (Coordinates ℚ)) (stop : ℕ) (hstop : stop ≤ route.length - 2)
    (i : ℕ) (la : ℚ) : (maneuverScan distFn bearFn route stop i la).isSome = true :=
  maneuverScanAux_isSome distFn bearFn route stop hstop (stop - i) i la le_rfl

/-- Claim C10: the maneuver-detection scan never indexes past the end of
the route: the forward loop runs only while i < min(length - 2, idx + 30),
so the accesses at i, i+1 and i+2 are always strictly below the length,
and the whole maneuver computation never performs an out-of-bounds route
access (a none result of the model marks such an access). -/
theorem claim_C10_scan_in_bounds (distFn bearFn : Coordinates ℚ → Coordinates ℚ → ℚ)
    (route : List (Coordinates ℚ)) (navigating : Bool) (pos : Coordinates ℚ)
    (target : Option (Coordinates ℚ)) (idx : ℕ) :
    (computeManeuver distFn bearFn route navigating pos target idx).isSome = true := by
  rw [computeManeuver.eq_def]
  by_cases hearly : navigating = false ∨ route.length ≤ 1
  · rw [if_pos hearly]
    rfl
  · rw [if_neg hearly]
    have hlen : 1 < route.length := by
      rcases not_or.mp hearly with ⟨-, h⟩
      omega
    by_cases harr : route.length - 1 ≤ idx ∨
        (match target with
          | some t => distFn pos t
          | none => 0) < 20
    · rw [if_pos harr]
      rfl
    · rw [if_neg harr]
      have hidx : idx < route.length - 1 := by
        rcases not_or.mp harr with ⟨h, -⟩
        omega
      rw [List.getElem?_eq_getElem (by omega : idx < route.length)]
      dsimp only
      have hscan := maneuverScan_isSome distFn bearFn route
        (min (route.length - 2) (idx + 30)) (min_le_left _ _) idx 0
      rcases Option.isSome_iff_exists.mp hscan with ⟨v, hv⟩
      rw [hv]
      rcases v with ⟨found, la⟩
      rcases found with _ | ⟨ty, la2⟩ <;> rfl

theorem relaxStep_no_change (distFn : Coordinates ℚ → Coordinates ℚ → ℚ)
    (options : Option RoutingOptions) (endNode : GraphNode) (g : List GraphNode)
    (currentId : NodeId) (st : AStarState) (neighbor : GraphEdge)
    (h : jsOr (st.gScore currentId) = ⊤) :
    relaxStep distFn options endNode g currentId st neighbor = st := by
  rw [relaxStep]
  dsimp only
  rw [h, WithTop.top_add, if_neg not_top_lt]

theorem relaxNeighbors_no_change (distFn : Coordinates ℚ → Coordinates ℚ → ℚ)
    (options : Option RoutingOptions) (endNode : GraphNode) (g : List GraphNode)
    (currentId : NodeId) (neighbors : List GraphEdge) (st : AStarState)
    (h : jsOr (st.gScore currentId) = ⊤) :
    relaxNeighbors distFn options endNode g currentId neighbors st = st := by
  induction neighbors with
  | nil => rfl
  | cons nb ns ih =>
      rw [relaxNeighbors, List.foldl_cons,
        relaxStep_no_change distFn options endNode g currentId st nb h]
      rw [relaxNeighbors] at ih
      exact ih

theorem astarLoop_of_empty (distFn : Coordinates ℚ → Coordinates ℚ → ℚ)
    (options : Option RoutingOptions) (startC endC : Coordinates ℚ)
    (endNode : GraphNode) (g : List GraphNode) (st : AStarState)
    (h : st.openSet = []) (fuel : ℕ) :
    astarLoop distFn options startC endC endNode g fuel st = some [startC, endC] := by
  cases fuel with
  | zero => simp [astarLoop, h]
  | succ n => simp [astarLoop, h]

theorem sortByFScore_singleton (key : NodeId → WithTop ℚ) (a : NodeId) :
    sortByFScore key [a] = [a] := rfl

theorem astarLoop_init (distFn : Coordinates ℚ → Coordinates ℚ → ℚ)
    (options : Option RoutingOptions) (startC endC : Coordinates ℚ)
    (endNode : GraphNode) (g : List GraphNode) (startNode : GraphNode)
    (hne : ¬ startNode.id = endNode.id) (fuel : ℕ) :
    astarLoop distFn options startC endC endNode g (fuel + 1)
      { openSet := [startNode.id]
        cameFrom := []
        gScore := fun id => if id = startNode.id then 0 else ⊤
        fScore := fun id =>
          if id = startNode.id then
            ((distFn { lat := startNode.lat, lng := startNode.lng }
                     { lat := endNode.lat, lng := endNode.lng } : ℚ) : WithTop ℚ)
          else ⊤ }
      = some [startC, endC] := by
  rw [astarLoop]
  dsimp only
  rw [sortByFScore_singleton]
  dsimp only
  rw [if_neg hne]
  have hg : jsOr ((fun id => if id = startNode.id then (0 : WithTop ℚ) else ⊤) startNode.id)
      = ⊤ := by
    dsimp only
    rw [if_pos rfl, jsOr, if_pos rfl]
  rw [relaxNeighbors_no_change _ _ _ _ _ _ _ hg]
  exact astarLoop_of_empty _ _ _ _ _ _ _ rfl fuel

theorem astarLoop_init_zero (distFn : Coordinates ℚ → Coordinates ℚ → ℚ)
    (options : Option RoutingOptions) (startC endC : Coordinates ℚ)
    (endNode : GraphNode) (g : List GraphNode) (st : AStarState)
    (h : st.openSet ≠ []) :
    astarLoop distFn options startC endC endNode g 0 st = none := by
  rw [astarLoop, if_neg]
  simp [List.isEmpty_iff, h]

/-- Central evaluation fact about the engine: with enough fuel for one
loop iteration, every input yields the direct two-point segment.  The
falsy-aware (g || Infinity) coercion maps the start g-score 0 to Infinity,
so the single popped node relaxes nothing and the open set empties. -/
theorem routeFromNearest_eq (distFn : Coordinates ℚ → Coordinates ℚ → ℚ)
    (start end_ : Coordinates ℚ) (options : Option RoutingOptions)
    (g : List GraphNode) (k : ℕ) (o1 o2 : Option GraphNode) :
    routeFromNearest distFn (k + 1) start end_ options g o1 o2 = some [start, end_] := by
  rcases o1 with _ | startNode
  · rfl
  · rcases o2 with _ | endNode
    · rfl
    · rw [routeFromNearest]
      split
      · rfl
      · rename_i hid
        exact astarLoop_init distFn options start end_ endNode g startNode hid k

theorem calculateOfflineRoute_eq (distFn : Coordinates ℚ → Coordinates ℚ → ℚ)
    (start end_ : Coordinates ℚ) (options : Option RoutingOptions) (k : ℕ) :
    calculateOfflineRoute distFn (k + 1) start end_ options = some [start, end_] :=
  routeFromNearest_eq distFn start end_ options (graph distFn) k _ _

theorem routeFromNearest_some (distFn : Coordinates ℚ → Coordinates ℚ → ℚ) (fuel : ℕ)
    (start end_ : Coordinates ℚ) (options : Option RoutingOptions) (g : List GraphNode)
    (o1 o2 : Option GraphNode) (r : List (Coordinates ℚ))
    (h : routeFromNearest distFn fuel start end_ options g o1 o2 = some r) :
    r = [start, end_] := by
  cases fuel with
  | succ k =>
      rw [routeFromNearest_eq distFn start end_ options g k o1 o2] at h
      exact (Option.some_inj.mp h).symm
  | zero =>
      rcases o1 with _ | startNode
      · exact (Option.some_inj.mp h).symm
      · rcases o2 with _ | endNode
        · exact (Option.some_inj.mp h).symm
        · rw [routeFromNearest] at h
          split at h
          · exact (Option.some_inj.mp h).symm
          · rw [astarLoop_init_zero distFn options start end_ endNode g _ (by
              intro hc
              exact List.cons_ne_nil _ _ hc)] at h
            exact absurd h (by simp)

theorem calculateOfflineRoute_some (distFn : Coordinates ℚ → Coordinates ℚ → ℚ)
    (fuel : ℕ) (start end_ : Coordinates ℚ) (options : Option RoutingOptions)
    (r : List (Coordinates ℚ))
    (h : calculateOfflineRoute distFn fuel start end_ options = some r) :
    r = [start, end_] := by
  rw [calculateOfflineRoute] at h
  exact routeFromNearest_some distFn fuel start end_ options (graph distFn) _ _ r h

/-- Claim C9: calculateOfflineRoute terminates for every input.  In the
fuel model (one unit of fuel per iteration of the while loop), every fuel
of at least 1 yields the same defined result.  The loop in fact stops
after its first iteration: the falsy-aware coercion
(gScore.get(currentId) || Infinity) turns the start g-score 0 into
Infinity, so no neighbor is ever relaxed, the open set empties, and the
claimed strict-decrease re-insertion discipline is satisfied vacuously. -/
theorem claim_C9_termination (distFn : Coordinates ℚ → Coordinates ℚ → ℚ)
    (start end_ : Coordinates ℚ) (options : Option RoutingOptions) (fuel : ℕ)
    (hfuel : 1 ≤ fuel) :
    calculateOfflineRoute distFn fuel start end_ options
        = calculateOfflineRoute distFn 1 start end_ options
    ∧ (calculateOfflineRoute distFn fuel start end_ options).isSome = true := by
  obtain ⟨k, rfl⟩ : ∃ k, fuel = k + 1 := ⟨fuel - 1, by omega⟩
  have h1 : calculateOfflineRoute distFn 1 start end_ options = some [start, end_] :=
    calculateOfflineRoute_eq distFn start end_ options 0
  have h2 : calculateOfflineRoute distFn (k + 1) start end_ options = some [start, end_] :=
    calculateOfflineRoute_eq distFn start end_ options k
  rw [h1, h2]
  exact ⟨rfl, rfl⟩

/-- Witness for claim C9 at a concrete input: fuel 2 and fuel 1 agree and
the result is defined. -/
theorem claim_C9_witness :
    calculateOfflineRoute distManhattan 2 pStart pEnd none
        = calculateOfflineRoute distManhattan 1 pStart pEnd none
    ∧ (calculateOfflineRoute distManhattan 2 pStart pEnd none).isSome = true :=
  claim_C9_termination distManhattan pStart pEnd none 2 (by norm_num)

/-- Claim C1: for every start, end and options, every defined result of
calculateOfflineRoute is a non-empty route whose first coordinate is the
exact caller start and whose last coordinate is the exact caller end; in
the resolution-failure and same-nearest-node cases the result is exactly
the direct segment [start, end].  (With the falsy-aware g-score coercion
the engine in fact returns the direct segment on every input.) -/
theorem claim_C1_route_endpoints (distFn : Coordinates ℚ → Coordinates ℚ → ℚ)
    (fuel : ℕ) (start end_ : Coordinates ℚ) (options : Option RoutingOptions)
    (r : List (Coordinates ℚ))
    (h : calculateOfflineRoute distFn fuel start end_ options = some r) :
    r ≠ [] ∧ r.head? = some start ∧ r.getLast? = some end_
    ∧ ((findNearestNode distFn (graph distFn) start = none
        ∨ findNearestNode distFn (graph distFn) end_ = none) → r = [start, end_])
    ∧ (∀ sN eN, findNearestNode distFn (graph distFn) start = some sN →
        findNearestNode distFn (graph distFn) end_ = some eN → sN.id = eN.id →
        r = [start, end_]) := by
  have hr : r = [start, end_] :=
    calculateOfflineRoute_some distFn fuel start end_ options r h
  subst hr
  refine ⟨by simp, rfl, rfl, fun _ => rfl, fun _ _ _ _ _ => rfl⟩

/-- Witness for claim C1 at a concrete input resolving to the distinct
nodes n1 and n2. -/
theorem claim_C1_witness :
    calculateOfflineRoute distManhattan 2 pStart pEnd none = some [pStart, pEnd]
    ∧ [pStart, pEnd] ≠ ([] : List (Coordinates ℚ))
    ∧ ([pStart, pEnd].head? = some pStart)
    ∧ ([pStart, pEnd].getLast? = some pEnd) := by
  have h : calculateOfflineRoute distManhattan 2 pStart pEnd none = some [pStart, pEnd] :=
    calculateOfflineRoute_eq distManhattan pStart pEnd none 1
  have hc := claim_C1_route_endpoints distManhattan 2 pStart pEnd none [pStart, pEnd] h
  exact ⟨h, hc.1, hc.2.1, hc.2.2.1⟩

theorem backWalk_spec (cameFrom : List (NodeId × NodeId)) :
    ∀ fuel cur ids, backWalk fuel cameFrom cur = some ids →
      ids ≠ [] ∧ ids.getLast? = some cur := by
  intro fuel
  induction fuel with
  | zero =>
      intro cur ids h
      exact absurd h (by rw [backWalk]; simp)
  | succ fuel ih =>
      intro cur ids h
      rw [backWalk] at h
      rcases hf : (cameFrom.find? (fun p => p.1 == cur)).map (fun p => p.2) with _ | prev
      · rw [hf] at h
        have : ids = [cur] := (Option.some_inj.mp h).symm
        subst this
        exact ⟨by simp, rfl⟩
      · rw [hf] at h
        rcases Option.map_eq_some'.mp h with ⟨ids0, hw, heq⟩
        subst heq
        refine ⟨by simp, ?_⟩
        exact List.getLast?_concat _

theorem reconstructPath_spec (fuel : ℕ) (cameFrom : List (NodeId × NodeId))
    (currentId : NodeId) (s e : Coordinates ℚ) (g : List GraphNode)
    (r : List (Coordinates ℚ))
    (h : reconstructPath fuel cameFrom currentId s e g = some r) :
    ∃ ids, backWalk fuel cameFrom currentId = some ids
      ∧ r = s :: (ids.map (nodeCoordOf g) ++ [e]) := by
  rw [reconstructPath] at h
  rcases Option.map_eq_some'.mp h with ⟨ids, hw, heq⟩
  exact ⟨ids, hw, heq.symm⟩

/-- Claim C5, amended: reconstructPath maps the back-pointer node path to
coordinates and PREPENDS the exact caller start in front of it (the
snapped start node coordinate is kept as the second element, not
replaced), then appends the exact caller end; so the result has two more
elements than the node path, not one. -/
theorem claim_C5_amended (fuel : ℕ) (cameFrom : List (NodeId × NodeId))
    (currentId : NodeId) (s e : Coordinates ℚ) (g : List GraphNode)
    (r : List (Coordinates ℚ))
    (h : reconstructPath fuel cameFrom currentId s e g = some r) :
    ∃ ids, backWalk fuel cameFrom currentId = some ids ∧ ids ≠ []
      ∧ ids.getLast? = some currentId
      ∧ r = s :: (ids.map (nodeCoordOf g) ++ [e])
      ∧ r.length = ids.length + 2
      ∧ r.head? = some s ∧ r.getLast? = some e := by
  rcases reconstructPath_spec fuel cameFrom currentId s e g r h with ⟨ids, hw, heq⟩
  rcases backWalk_spec cameFrom fuel currentId ids hw with ⟨hne, hlast⟩
  subst heq
  refine ⟨ids, hw, hne, hlast, rfl, by simp, rfl, ?_⟩
  rw [show s :: (ids.map (nodeCoordOf g) ++ [e])
      = (s :: ids.map (nodeCoordOf g)) ++ [e] from rfl]
  exact List.getLast?_concat _

/-- Claim C5, counterexample: with the back-pointer map sending n2 to n1
and current node n2, reconstructPath yields a four-element route in which
the snapped start node coordinate (of n1) appears right after the exact
caller start; the claimed replace-first behaviour would have produced the
three-element route without it. -/
theorem claim_C5_counterexample :
    reconstructPath 2 ceCameFrom NodeId.n2 ceStart ceEnd (graph distManhattan)
      = some [ceStart, nodeCoordOf (graph distManhattan) NodeId.n1,
              nodeCoordOf (graph distManhattan) NodeId.n2, ceEnd]
    ∧ (some [ceStart, nodeCoordOf (graph distManhattan) NodeId.n1,
              nodeCoordOf (graph distManhattan) NodeId.n2, ceEnd]
        ≠ some [ceStart, nodeCoordOf (graph distManhattan) NodeId.n2, ceEnd]) := by
  constructor
  · rfl
  · intro hc
    have h1 := Option.some_inj.mp hc
    have h2 := congrArg List.length h1
    simp at h2

/-- Witness for the amended claim C5 at the same concrete input. -/
theorem claim_C5_witness :
    reconstructPath 2 ceCameFrom NodeId.n2 ceStart ceEnd (graph distManhattan)
      = some [ceStart, nodeCoordOf (graph distManhattan) NodeId.n1,
              nodeCoordOf (graph distManhattan) NodeId.n2, ceEnd]
    ∧ ∃ ids, backWalk 2 ceCameFrom NodeId.n2 = some ids ∧ ids ≠ []
      ∧ ids.getLast? = some NodeId.n2
      ∧ [ceStart, nodeCoordOf (graph distManhattan) NodeId.n1,
          nodeCoordOf (graph distManhattan) NodeId.n2, ceEnd]
          = ceStart :: (ids.map (nodeCoordOf (graph distManhattan)) ++ [ceEnd])
      ∧ ([ceStart, nodeCoordOf (graph distManhattan) NodeId.n1,
          nodeCoordOf (graph distManhattan) NodeId.n2, ceEnd] : List (Coordinates ℚ)).length
          = ids.length + 2
      ∧ [ceStart, nodeCoordOf (graph distManhattan) NodeId.n1,
          nodeCoordOf (graph distManhattan) NodeId.n2, ceEnd].head? = some ceStart
      ∧ [ceStart, nodeCoordOf (graph distManhattan) NodeId.n1,
          nodeCoordOf (graph distManhattan) NodeId.n2, ceEnd].getLast? = some ceEnd := by
  have h : reconstructPath 2 ceCameFrom NodeId.n2 ceStart ceEnd (graph distManhattan)
      = some [ceStart, nodeCoordOf (graph distManhattan) NodeId.n1,
              nodeCoordOf (graph distManhattan) NodeId.n2, ceEnd] := rfl
  exact ⟨h, claim_C5_amended 2 ceCameFrom NodeId.n2 ceStart ceEnd (graph distManhattan) _ h⟩

theorem chainTail_some (distFn : Coordinates ℚ → Coordinates ℚ → ℚ) (fuel : ℕ)
    (options : Option RoutingOptions) :
    ∀ (a : Coordinates ℚ) (pts : List (Coordinates ℚ)) (r : List (Coordinates ℚ)),
      chainTail distFn fuel options a pts = some r →
      r = pts ∧ segsOk distFn fuel options (a :: pts) (directSegs a pts) := by
  intro a pts
  induction pts generalizing a with
  | nil =>
      intro r h
      rw [chainTail] at h
      exact ⟨(Option.some_inj.mp h).symm, trivial⟩
  | cons b rest ih =>
      intro r h
      rw [chainTail] at h
      rcases hseg : calculateOfflineRoute distFn fuel a b options with _ | seg
      · rw [hseg] at h
        simp at h
      · rw [hseg] at h
        simp only [Option.bind_eq_bind', Option.some_bind] at h
        rcases htl : chainTail distFn fuel options b rest with _ | tl
        · rw [htl] at h
          simp at h
        · rw [htl] at h
          simp only [Option.bind_eq_bind', Option.some_bind, Option.pure_def,
            Option.some_inj] at h
          have hsegshape : seg = [a, b] :=
            calculateOfflineRoute_some distFn fuel a b options seg hseg
          rcases ih b tl htl with ⟨htlshape, hok⟩
          subst hsegshape
          subst htlshape
          constructor
          · rw [← h]
            rfl
          · rw [directSegs]
            exact ⟨hseg, hok⟩

theorem directSegs_flatten (a : Coordinates ℚ) (pts : List (Coordinates ℚ)) :
    ((directSegs a pts).map (fun t => t.drop 1)).flatten = pts := by
  induction pts generalizing a with
  | nil => rfl
  | cons b rest ih =>
      rw [directSegs]
      simp only [List.map_cons, List.flatten_cons]
      rw [ih b]
      rfl

theorem directSegs_concat (a : Coordinates ℚ) (pts : List (Coordinates ℚ))
    (h : pts ≠ []) : concatSegs (directSegs a pts) = a :: pts := by
  rcases pts with _ | ⟨b, rest⟩
  · exact absurd rfl h
  · rw [directSegs, concatSegs, directSegs_flatten]
    rfl

theorem directSegs_junctions (a : Coordinates ℚ) (pts : List (Coordinates ℚ)) :
    junctionsAligned (directSegs a pts) := by
  induction pts generalizing a with
  | nil => trivial
  | cons b rest ih =>
      rcases rest with _ | ⟨c, rest2⟩
      · trivial
      · exact ⟨rfl, ih b⟩

theorem cORWW_some (distFn : Coordinates ℚ → Coordinates ℚ → ℚ) (fuel : ℕ)
    (start end_ : Coordinates ℚ) (waypoints : List (Coordinates ℚ))
    (options : Option RoutingOptions) (r : List (Coordinates ℚ))
    (h : calculateOfflineRouteWithWaypoints distFn fuel start end_ waypoints options
        = some r) :
    r = start :: (waypoints ++ [end_])
    ∧ segsOk distFn fuel options (start :: (waypoints ++ [end_]))
        (directSegs start (waypoints ++ [end_])) := by
  rcases waypoints with _ | ⟨b, rest⟩
  · rw [calculateOfflineRouteWithWaypoints] at h
    have hr : r = [start, end_] :=
      calculateOfflineRoute_some distFn fuel start end_ options r h
    subst hr
    refine ⟨rfl, ?_⟩
    rw [List.nil_append, directSegs, directSegs]
    exact ⟨h, trivial⟩
  · rw [calculateOfflineRouteWithWaypoints] at h
    rcases hseg : calculateOfflineRoute distFn fuel start b options with _ | seg
    · rw [hseg] at h
      simp at h
    · rw [hseg] at h
      simp only [Option.bind_eq_bind', Option.some_bind] at h
      rcases htl : chainTail distFn fuel options b (rest ++ [end_]) with _ | tl
      · rw [htl] at h
        simp at h
      · rw [htl] at h
        simp only [Option.bind_eq_bind', Option.some_bind, Option.pure_def,
          Option.some_inj] at h
        have hsegshape : seg = [start, b] :=
          calculateOfflineRoute_some distFn fuel start b options seg hseg
        rcases chainTail_some distFn fuel options b (rest ++ [end_]) tl htl with ⟨htlshape, hok⟩
        subst hsegshape
        subst htlshape
        constructor
        · rw [← h]
          rfl
        · rw [show (b :: rest) ++ [end_] = b :: (rest ++ [end_]) from rfl, directSegs]
          exact ⟨hseg, hok⟩

/-- Claim C4: every defined result of the offline multi-waypoint fallback
is non-empty, starts at the exact caller start, ends at the exact caller
end, contains every waypoint, and decomposes into one engine segment per
consecutive pair, concatenated with the first segment whole and every
later segment contributing all points except its first; consecutive
segments meet exactly at the shared junction coordinate. -/
theorem claim_C4_waypoint_chain (distFn : Coordinates ℚ → Coordinates ℚ → ℚ)
    (fuel : ℕ) (start end_ : Coordinates ℚ) (waypoints : List (Coordinates ℚ))
    (options : Option RoutingOptions) (r : List (Coordinates ℚ))
    (h : calculateOfflineRouteWithWaypoints distFn fuel start end_ waypoints options
        = some r) :
    r ≠ [] ∧ r.head? = some start ∧ r.getLast? = some end_
    ∧ (∀ wp ∈ waypoints, wp ∈ r)
    ∧ ∃ segs, segsOk distFn fuel options (start :: (waypoints ++ [end_])) segs
        ∧ r = concatSegs segs ∧ junctionsAligned segs := by
  rcases cORWW_some distFn fuel start end_ waypoints options r h with ⟨hr, hok⟩
  subst hr
  refine ⟨by simp, rfl, ?_, ?_, directSegs start (waypoints ++ [end_]), hok, ?_, ?_⟩
  · rw [show start :: (waypoints ++ [end_]) = (start :: waypoints) ++ [end_] from rfl]
    exact List.getLast?_concat _
  · intro wp hwp
    simp [hwp]
  · rw [directSegs_concat start (waypoints ++ [end_]) (by simp)]
  · exact directSegs_junctions _ _

theorem chainTail_eq (distFn : Coordinates ℚ → Coordinates ℚ → ℚ) (k : ℕ)
    (options : Option RoutingOptions) :
    ∀ (a : Coordinates ℚ) (pts : List (Coordinates ℚ)),
      chainTail distFn (k + 1) options a pts = some pts := by
  intro a pts
  induction pts generalizing a with
  | nil => rfl
  | cons b rest ih =>
      rw [chainTail, calculateOfflineRoute_eq distFn a b options k, ih b]
      rfl

theorem cORWW_eq (distFn : Coordinates ℚ → Coordinates ℚ → ℚ) (k : ℕ)
    (start end_ : Coordinates ℚ) (waypoints : List (Coordinates ℚ))
    (options : Option RoutingOptions) :
    calculateOfflineRouteWithWaypoints distFn (k + 1) start end_ waypoints options
      = some (start :: (waypoints ++ [end_])) := by
  rcases waypoints with _ | ⟨b, rest⟩
  · rw [calculateOfflineRouteWithWaypoints, calculateOfflineRoute_eq distFn start end_ options k]
    rfl
  · rw [calculateOfflineRouteWithWaypoints, calculateOfflineRoute_eq distFn start b options k,
      chainTail_eq distFn k options b (rest ++ [end_])]
    rfl

/-- Witness for claim C4 on the concrete chain n1 to n3 via the waypoint
n2: the fallback yields the three-point route through the waypoint. -/
theorem claim_C4_witness :
    calculateOfflineRouteWithWaypoints distManhattan 2 pStart pWest [pEnd] none
        = some [pStart, pEnd, pWest]
    ∧ [pStart, pEnd, pWest].head? = some pStart
    ∧ ([pStart, pEnd, pWest] : List (Coordinates ℚ)).getLast? = some pWest
    ∧ pEnd ∈ [pStart, pEnd, pWest] := by
  have h : calculateOfflineRouteWithWaypoints distManhattan 2 pStart pWest [pEnd] none
      = some [pStart, pEnd, pWest] := cORWW_eq distManhattan 1 pStart pWest [pEnd] none
  have hc := claim_C4_waypoint_chain distManhattan 2 pStart pWest [pEnd] none
    [pStart, pEnd, pWest] h
  exact ⟨h, hc.2.1, hc.2.2.1, hc.2.2.2.1 pEnd (by simp)⟩

/-- The Earth radius constant of navigationService.ts is positive. -/
theorem R_pos : (0 : ℝ) < R := by norm_num [R]

/-- Converting a radian value to degrees and back is the identity. -/
theorem toRad_toDeg (x : ℝ) : toRad (toDeg x) = x := by
  rw [toRad, toDeg]
  field_simp

/-- The atan2 model returns 0 at the origin, as Math.atan2(0, 0) does. -/
theorem atan2_zero_zero : atan2 0 0 = 0 := by
  rw [atan2]
  have h : Complex.mk 0 0 = 0 := by
    apply Complex.ext <;> simp
  rw [h, Complex.arg_zero]

/-- The atan2 model returns 0 on the positive x axis. -/
theorem atan2_zero_one : atan2 0 1 = 0 := by
  rw [atan2]
  have h : Complex.mk 1 0 = 1 := by
    apply Complex.ext <;> simp
  rw [h, Complex.arg_one]

/-- Cosine of the atan2 model away from the origin. -/
theorem cos_atan2 (y x : ℝ) (h : ¬(x = 0 ∧ y = 0)) :
    Real.cos (atan2 y x) = x / Real.sqrt (x ^ 2 + y ^ 2) := by
  have hz : Complex.mk x y ≠ 0 := by
    intro hc
    rw [Complex.ext_iff] at hc
    simp at hc
    exact h hc
  rw [atan2, Complex.cos_arg hz]
  have habs : Complex.abs (Complex.mk x y) = Real.sqrt (x ^ 2 + y ^ 2) := by
    rw [Complex.abs_apply, Complex.normSq_mk]
    ring_nf
  rw [habs]

/-- The atan2 model inverts the cosine-sine pair on the principal range. -/
theorem atan2_cos_sin (t : ℝ) (h1 : -Real.pi < t) (h2 : t ≤ Real.pi) :
    atan2 (Real.sin t) (Real.cos t) = t := by
  rw [atan2]
  have h : Complex.mk (Real.cos t) (Real.sin t)
      = (Real.cos t : ℂ) + (Real.sin t : ℂ) * Complex.I := Complex.mk_eq_add_mul_I _ _
  rw [h, Complex.ofReal_cos, Complex.ofReal_sin]
  exact Complex.arg_cos_add_sin_mul_I ⟨h1, h2⟩

/-- Algebraic identity behind the spherical direct-inverse round trip: the
squared longitude-argument components sum to the squared product of the
cosines of the two latitudes. -/
theorem sphere_pythagoras (s1 c1 sd cd st ct : ℝ)
    (hp1 : s1 ^ 2 + c1 ^ 2 = 1) (hp2 : st ^ 2 + ct ^ 2 = 1) (hp3 : sd ^ 2 + cd ^ 2 = 1) :
    (cd - s1 * (s1 * cd + c1 * sd * ct)) ^ 2 + (st * sd * c1) ^ 2
      = c1 ^ 2 * (1 - (s1 * cd + c1 * sd * ct) ^ 2) := by
  linear_combination ((s1 * cd + c1 * sd * ct) ^ 2 - cd ^ 2) * hp1
    + (c1 ^ 2 * sd ^ 2) * hp2 + c1 ^ 2 * hp3

/-- Normal form of calculateDistance when the second point is given by its
radian coordinates: conversions cancel and the haversine argument is
expressed directly in radians. -/
theorem calculateDistance_toDeg (p1 : Coordinates ℝ) (A B : ℝ) :
    calculateDistance p1 { lat := toDeg A, lng := toDeg B }
      = R * (2 * atan2
          (Real.sqrt (Real.sin ((A - toRad p1.lat) / 2) * Real.sin ((A - toRad p1.lat) / 2)
            + Real.sin ((B - toRad p1.lng) / 2) * Real.sin ((B - toRad p1.lng) / 2)
              * Real.cos (toRad p1.lat) * Real.cos A))
          (Real.sqrt (1 - (Real.sin ((A - toRad p1.lat) / 2) * Real.sin ((A - toRad p1.lat) / 2)
            + Real.sin ((B - toRad p1.lng) / 2) * Real.sin ((B - toRad p1.lng) / 2)
              * Real.cos (toRad p1.lat) * Real.cos A)))) := by
  have h1 : toRad (toDeg A - p1.lat) = A - toRad p1.lat := by
    rw [toRad, toDeg, toRad]
    field_simp
    ring
  have h2 : toRad (toDeg B - p1.lng) = B - toRad p1.lng := by
    rw [toRad, toDeg, toRad]
    field_simp
    ring
  have h3 : toRad (toDeg A) = A := toRad_toDeg A
  rw [calculateDistance]
  dsimp only
  rw [h1, h2, h3]

set_option maxHeartbeats 1000000 in
/-- Claim C6 (amended): in the exact real model, calculateDistance applied
to a point and to calculateNewPosition of that point at distance d and any
bearing returns exactly d, provided the start latitude lies between -90
and 90 degrees and 0 le d le pi times R (half the great circle). Beyond
pi times R the round trip fails, see the counterexample. -/
theorem claim_C6_amended (start : Coordinates ℝ) (d θ : ℝ)
    (hlat1 : -90 ≤ start.lat) (hlat2 : start.lat ≤ 90)
    (hd0 : 0 ≤ d) (hdp : d ≤ Real.pi * R) :
    calculateDistance start (calculateNewPosition start d θ) = d := by
  have hR := R_pos
  have hπ := Real.pi_pos
  have hpos : calculateNewPosition start d θ
      = { lat := toDeg (Real.arcsin (Real.sin (toRad start.lat) * Real.cos (d / R) +
            Real.cos (toRad start.lat) * Real.sin (d / R) * Real.cos (toRad θ))),
          lng := toDeg (toRad start.lng + atan2
            (Real.sin (toRad θ) * Real.sin (d / R) * Real.cos (toRad start.lat))
            (Real.cos (d / R) - Real.sin (toRad start.lat) *
              Real.sin (Real.arcsin (Real.sin (toRad start.lat) * Real.cos (d / R) +
                Real.cos (toRad start.lat) * Real.sin (d / R) * Real.cos (toRad θ))))) } := rfl
  rw [hpos, calculateDistance_toDeg]
  set φ1 := toRad start.lat with hphi1
  set θr := toRad θ with hth
  set δ := d / R with hdel
  set s2 := Real.sin φ1 * Real.cos δ + Real.cos φ1 * Real.sin δ * Real.cos θr with hs2
  set φ2 := Real.arcsin s2 with hphi2
  have hphi1lb : -(Real.pi / 2) ≤ φ1 := by
    rw [hphi1, toRad]
    nlinarith
  have hphi1ub : φ1 ≤ Real.pi / 2 := by
    rw [hphi1, toRad]
    nlinarith
  have hc1 : 0 ≤ Real.cos φ1 := Real.cos_nonneg_of_mem_Icc ⟨hphi1lb, hphi1ub⟩
  have hδ0 : 0 ≤ δ := div_nonneg hd0 hR.le
  have hδπ : δ ≤ Real.pi := by
    rw [hdel, div_le_iff₀ hR]
    linarith
  have hsδ : 0 ≤ Real.sin δ := Real.sin_nonneg_of_nonneg_of_le_pi hδ0 hδπ
  have hs2le : s2 ≤ 1 := by
    have hct : Real.cos θr ≤ 1 := Real.cos_le_one θr
    have h2 : Real.cos φ1 * Real.sin δ * Real.cos θr ≤ Real.cos φ1 * Real.sin δ := by
      nlinarith [mul_nonneg hc1 hsδ]
    calc s2 ≤ Real.sin φ1 * Real.cos δ + Real.cos φ1 * Real.sin δ := by rw [hs2]; linarith
      _ = Real.sin (φ1 + δ) := (Real.sin_add φ1 δ).symm
      _ ≤ 1 := Real.sin_le_one _
  have hs2ge : -1 ≤ s2 := by
    have hct : -1 ≤ Real.cos θr := Real.neg_one_le_cos θr
    have h2 : -(Real.cos φ1 * Real.sin δ) ≤ Real.cos φ1 * Real.sin δ * Real.cos θr := by
      nlinarith [mul_nonneg hc1 hsδ]
    calc (-1 : ℝ) ≤ Real.sin (φ1 - δ) := Real.neg_one_le_sin _
      _ = Real.sin φ1 * Real.cos δ - Real.cos φ1 * Real.sin δ := Real.sin_sub φ1 δ
      _ ≤ s2 := by rw [hs2]; linarith
  have hsin2 : Real.sin φ2 = s2 := Real.sin_arcsin hs2ge hs2le
  have hc2 : 0 ≤ Real.cos φ2 := Real.cos_arcsin_nonneg s2
  have hc2sq : Real.cos φ2 ^ 2 = 1 - s2 ^ 2 := by
    rw [hphi2, Real.cos_arcsin]
    exact Real.sq_sqrt (by nlinarith)
  rw [hsin2]
  set y0 := Real.sin θr * Real.sin δ * Real.cos φ1 with hy0
  set x0 := Real.cos δ - Real.sin φ1 * s2 with hx0
  set α := atan2 y0 x0 with halpha
  have hsum : x0 ^ 2 + y0 ^ 2 = (Real.cos φ1 * Real.cos φ2) ^ 2 := by
    have hp1 := Real.sin_sq_add_cos_sq φ1
    have hp2 := Real.sin_sq_add_cos_sq θr
    have hp3 := Real.sin_sq_add_cos_sq δ
    have hkey := sphere_pythagoras (Real.sin φ1) (Real.cos φ1) (Real.sin δ) (Real.cos δ)
      (Real.sin θr) (Real.cos θr) hp1 hp2 hp3
    rw [hx0, hy0, hs2]
    calc (Real.cos δ - Real.sin φ1 * (Real.sin φ1 * Real.cos δ +
            Real.cos φ1 * Real.sin δ * Real.cos θr)) ^ 2
          + (Real.sin θr * Real.sin δ * Real.cos φ1) ^ 2
        = (Real.cos δ - Real.sin φ1 * (Real.sin φ1 * Real.cos δ +
            Real.cos φ1 * Real.sin δ * Real.cos θr)) ^ 2
          + (Real.sin θr * Real.sin δ * Real.cos φ1) ^ 2 := rfl
      _ = Real.cos φ1 ^ 2 * (1 - (Real.sin φ1 * Real.cos δ +
            Real.cos φ1 * Real.sin δ * Real.cos θr) ^ 2) := hkey
      _ = (Real.cos φ1 * Real.cos φ2) ^ 2 := by
            rw [← hs2, ← hc2sq]
            ring
  have hkeycos : Real.sin φ1 * s2 + Real.cos φ1 * Real.cos φ2 * Real.cos α = Real.cos δ := by
    by_cases hz : x0 = 0 ∧ y0 = 0
    · have hα0 : α = 0 := by
        rw [halpha, hz.1, hz.2, atan2_zero_zero]
      have hcc : Real.cos φ1 * Real.cos φ2 = 0 := by
        have h0 : (Real.cos φ1 * Real.cos φ2) ^ 2 = 0 := by
          rw [← hsum, hz.1, hz.2]
          ring
        exact pow_eq_zero_iff (by norm_num) |>.mp h0
      have hx00 : Real.cos δ - Real.sin φ1 * s2 = 0 := by rw [← hx0, hz.1]
      rw [hα0, Real.cos_zero, hcc]
      linarith
    · have hcosα : Real.cos α = x0 / Real.sqrt (x0 ^ 2 + y0 ^ 2) := cos_atan2 y0 x0 hz
      have hsqrt : Real.sqrt (x0 ^ 2 + y0 ^ 2) = Real.cos φ1 * Real.cos φ2 := by
        rw [hsum]
        exact Real.sqrt_sq (mul_nonneg hc1 hc2)
      have hne : Real.cos φ1 * Real.cos φ2 ≠ 0 := by
        intro hc
        have h0 : x0 ^ 2 + y0 ^ 2 = 0 := by rw [hsum, hc]; ring
        have hx00 : x0 = 0 := by nlinarith [sq_nonneg x0, sq_nonneg y0]
        have hy00 : y0 = 0 := by nlinarith [sq_nonneg x0, sq_nonneg y0]
        exact hz ⟨hx00, hy00⟩
      rw [hcosα, hsqrt]
      have hcanc : Real.cos φ1 * Real.cos φ2 * (x0 / (Real.cos φ1 * Real.cos φ2)) = x0 := by
        field_simp
      rw [hcanc, hx0]
      ring
  have hhalf : ∀ t : ℝ, Real.sin (t / 2) * Real.sin (t / 2) = (1 - Real.cos t) / 2 := by
    intro t
    have h := Real.sin_sq_eq_half_sub (t / 2)
    rw [show 2 * (t / 2) = t by ring] at h
    nlinarith [h]
  have hΔφ : Real.cos (φ2 - φ1) = Real.cos φ2 * Real.cos φ1 + s2 * Real.sin φ1 := by
    rw [Real.cos_sub, hsin2]
  have haval : Real.sin ((φ2 - φ1) / 2) * Real.sin ((φ2 - φ1) / 2)
      + Real.sin ((toRad start.lng + α - toRad start.lng) / 2)
        * Real.sin ((toRad start.lng + α - toRad start.lng) / 2)
        * Real.cos φ1 * Real.cos φ2
      = (1 - Real.cos δ) / 2 := by
    rw [show toRad start.lng + α - toRad start.lng = α by ring]
    rw [hhalf (φ2 - φ1), hhalf α, hΔφ]
    linear_combination (-1/2 : ℝ) * hkeycos
  rw [haval]
  have hδhalf0 : 0 ≤ δ / 2 := by linarith
  have hδhalfπ : δ / 2 ≤ Real.pi / 2 := by linarith
  have hsinδh : 0 ≤ Real.sin (δ / 2) :=
    Real.sin_nonneg_of_nonneg_of_le_pi hδhalf0 (by linarith)
  have hcosδh : 0 ≤ Real.cos (δ / 2) :=
    Real.cos_nonneg_of_mem_Icc ⟨by linarith, hδhalfπ⟩
  have hasin : (1 - Real.cos δ) / 2 = Real.sin (δ / 2) ^ 2 := by
    have h := Real.sin_sq_eq_half_sub (δ / 2)
    rw [show 2 * (δ / 2) = δ by ring] at h
    linarith
  have hacos : 1 - Real.sin (δ / 2) ^ 2 = Real.cos (δ / 2) ^ 2 := by
    have h := Real.sin_sq_add_cos_sq (δ / 2)
    linarith
  rw [hasin, hacos, Real.sqrt_sq hsinδh, Real.sqrt_sq hcosδh]
  rw [atan2_cos_sin (δ / 2) (by linarith) (by linarith)]
  rw [hdel]
  field_simp
  ring

/-- Counterexample for claim C6 as stated without a distance bound: going a
full great circle (d equal to 2 pi R) from the origin at bearing 0 returns
to the start, so the measured distance is 0, not d. -/
theorem claim_C6_counterexample :
    calculateDistance ⟨0, 0⟩ (calculateNewPosition ⟨0, 0⟩ (2 * Real.pi * R) 0) = 0
      ∧ 0 < 2 * Real.pi * R := by
  have hR := R_pos
  have h2π : 2 * Real.pi * R / R = 2 * Real.pi := by field_simp
  have htr0 : toRad 0 = 0 := by rw [toRad]; ring
  have htd0 : toDeg 0 = 0 := by rw [toDeg]; ring
  constructor
  · have hdest0 : calculateNewPosition ⟨0, 0⟩ (2 * Real.pi * R) 0
        = { lat := toDeg (Real.arcsin (Real.sin (toRad 0) * Real.cos (2 * Real.pi * R / R) +
              Real.cos (toRad 0) * Real.sin (2 * Real.pi * R / R) * Real.cos (toRad 0))),
            lng := toDeg (toRad 0 + atan2
              (Real.sin (toRad 0) * Real.sin (2 * Real.pi * R / R) * Real.cos (toRad 0))
              (Real.cos (2 * Real.pi * R / R) - Real.sin (toRad 0) *
                Real.sin (Real.arcsin (Real.sin (toRad 0) * Real.cos (2 * Real.pi * R / R) +
                  Real.cos (toRad 0) * Real.sin (2 * Real.pi * R / R) * Real.cos (toRad 0))))) } :=
      rfl
    rw [htr0, h2π] at hdest0
    rw [Real.sin_zero, Real.cos_zero, Real.sin_two_pi, Real.cos_two_pi] at hdest0
    norm_num [Real.arcsin_zero, atan2_zero_one, htd0] at hdest0
    rw [hdest0]
    have hdd : calculateDistance ⟨0, 0⟩ ⟨0, 0⟩
        = R * (2 * atan2
            (Real.sqrt (Real.sin (toRad ((0 : ℝ) - 0) / 2) * Real.sin (toRad ((0 : ℝ) - 0) / 2)
              + Real.sin (toRad ((0 : ℝ) - 0) / 2) * Real.sin (toRad ((0 : ℝ) - 0) / 2)
                * Real.cos (toRad 0) * Real.cos (toRad 0)))
            (Real.sqrt (1 - (Real.sin (toRad ((0 : ℝ) - 0) / 2) * Real.sin (toRad ((0 : ℝ) - 0) / 2)
              + Real.sin (toRad ((0 : ℝ) - 0) / 2) * Real.sin (toRad ((0 : ℝ) - 0) / 2)
                * Real.cos (toRad 0) * Real.cos (toRad 0))))) := rfl
    rw [hdd]
    rw [show ((0 : ℝ) - 0) = 0 by ring, htr0]
    norm_num [Real.sin_zero, atan2_zero_one]
  · nlinarith [Real.pi_pos, R_pos]

/-- Witness for the amended claim C6 at the origin with distance 0 and
bearing 0: the measured round-trip distance is exactly 0. -/
theorem claim_C6_witness :
    calculateDistance ⟨0, 0⟩ (calculateNewPosition ⟨0, 0⟩ 0 0) = 0 :=
  claim_C6_amended ⟨0, 0⟩ 0 0 (by norm_num) (by norm_num)
    (le_refl 0) (le_of_lt (mul_pos Real.pi_pos R_pos))
